import Mathlib

/-!
Verification of the Flux backend budget / goal / income aggregation engine.

Shallow embedding conventions:
* monetary amounts are rationals (`ℚ`), instants are integers (`ℤ`);
* mongoose documents become Lean structures; only the fields the verified
  claims read or write are carried (display-only fields such as `name`,
  `currency`, `tags` are elided);
* `Model.create` / `document.save()` persistence is modelled as pure state
  transformation; a save that can fail (mongoose validation, storage error)
  returns `Except String`;
* the mongoose `pre('save')` hooks are explicit functions applied wherever
  the source calls `save()`.
-/

namespace Flux

/-- Expense categories (the `Expense` schema enum; note it has no `total`). -/
inductive ExpCategory
  | food | transport | entertainment | shopping | bills
  | healthcare | education | travel | groceries | business
  | personal | recharge | investment | other
  deriving DecidableEq

/-- Budget categories: the expense categories plus the sentinel `'total'`
(for the overall monthly budget) from the `Budget` schema enum. -/
inductive BCategory
  | cat (c : ExpCategory)
  | total
  deriving DecidableEq

/-- Expense `status` enum. -/
inductive ExpStatus
  | pending | completed | cancelled
  deriving DecidableEq

/-- An expense document (fields read by the budget aggregation paths). -/
structure Expense where
  amount : ℚ
  category : ExpCategory
  date : ℤ
  status : ExpStatus
  deriving DecidableEq

/-- One entry of `budget.alerts.thresholds`. -/
structure Threshold where
  percentage : ℚ
  triggered : Bool
  triggeredAt : Option ℤ
  deriving DecidableEq

/-- A budget document (fields read by the spending aggregation paths).
`thresholds` and `defaultThresholds` are the `alerts` sub-document. -/
structure Budget where
  category : BCategory
  amount : ℚ
  startDate : ℤ
  endDate : ℤ
  spent : ℚ
  thresholds : List Threshold
  defaultThresholds : List ℚ
  isActive : Bool
  deriving DecidableEq

/-- Virtual `percentageUsed`: `Math.min(100, (this.spent / this.amount) * 100)`. -/
def Budget.percentageUsed (b : Budget) : ℚ :=
  min 100 (b.spent / b.amount * 100)

/-- `budgetSchema.pre('save')`: materialize the default thresholds
(untriggered) when none are set. -/
def budgetPreSave (b : Budget) : Budget :=
  if b.thresholds.isEmpty then
    { b with thresholds := b.defaultThresholds.map fun p =>
        { percentage := p, triggered := false, triggeredAt := none } }
  else b

/-- `budgetSchema.methods.updateSpent(newExpenseAmount, oldExpenseAmount)`:
adds the difference to `spent` clamped at 0, then marks every not-yet
triggered threshold whose percentage is reached, stamping `triggeredAt`;
finally saves (running the pre-save hook).  `now` is the clock value used
for `new Date()`. -/
def updateSpent (b : Budget) (newExpenseAmount oldExpenseAmount : ℚ) (now : ℤ) : Budget :=
  let difference := newExpenseAmount - oldExpenseAmount
  let b1 : Budget := { b with spent := max 0 (b.spent + difference) }
  let currentPercentage := b1.percentageUsed
  budgetPreSave
    { b1 with thresholds := b1.thresholds.map fun t =>
        if t.triggered = false ∧ t.percentage ≤ currentPercentage then
          { t with triggered := true, triggeredAt := some now }
        else t }

/-- The category clause of the `recalculateBudgetSpending` aggregation match:
`budget.category === 'total' ? { $exists: true } : budget.category`. -/
def bcatMatches (bc : BCategory) (c : ExpCategory) : Bool :=
  match bc with
  | .total => true
  | .cat c0 => c0 == c

/-- The full `$match` stage of `recalculateBudgetSpending`: category clause,
`date` within `[startDate, endDate]`, `status: 'completed'`. -/
def matchesRecalc (b : Budget) (e : Expense) : Bool :=
  bcatMatches b.category e.category
    && decide (b.startDate ≤ e.date) && decide (e.date ≤ b.endDate)
    && (e.status == ExpStatus.completed)

/-- The `$group` total of `recalculateBudgetSpending`: sum of the amounts of
the matching expenses (`totalSpent[0]?.total || 0` — the empty sum is 0). -/
def recalcSpent (b : Budget) (ledger : List Expense) : ℚ :=
  ((ledger.filter (matchesRecalc b)).map Expense.amount).sum

/-- `recalculateBudgetSpending(budget)`: recompute `spent` from the ledger;
if the recomputed spend is below the budget amount, reset every threshold
whose percentage exceeds the recomputed percentage; save. -/
def recalculateBudgetSpending (ledger : List Expense) (b : Budget) : Budget :=
  budgetPreSave
    (if recalcSpent b ledger < b.amount then
      { b with
        spent := recalcSpent b ledger
        thresholds := b.thresholds.map fun t =>
          if recalcSpent b ledger / b.amount * 100 < t.percentage then
            { t with triggered := false, triggeredAt := none }
          else t }
    else { b with spent := recalcSpent b ledger })

/-- Whether `updateBudgetSpending(userId, category, amount)` finds and hence
updates this budget: it is found either by the category-specific `findOne`
(`category`, `isActive: true`, window containing `new Date()`) or by the
`'total'` `findOne` with the same activity/window clauses. -/
def incrMatches (b : Budget) (now : ℤ) (c : ExpCategory) : Bool :=
  (b.category == BCategory.cat c || b.category == BCategory.total)
    && b.isActive && decide (b.startDate ≤ now) && decide (now ≤ b.endDate)

/-- The effect of one `updateBudgetSpending(userId, category, amount)` call on
a single budget document, with the saves succeeding: when the budget is
found by one of the two queries it receives `updateSpent(amount, 0)`. -/
def applyIncr (now : ℤ) (c : ExpCategory) (amt : ℚ) (b : Budget) : Budget :=
  if incrMatches b now c then updateSpent b amt 0 now else b

/-- An expense mutation, as issued through the expense controller, restricted
to the fields that drive the budget aggregation (`update` models an
amount-only `updateExpense`; `update`/`delete` address the expense by its
position in the ledger, standing in for its `_id`). -/
inductive ExpOp
  | create (e : Expense)
  | update (i : ℕ) (newAmount : ℚ)
  | delete (i : ℕ)
  deriving DecidableEq

/-- The state a single budget's incremental path maintains: the expense
ledger plus the (cached) budget document. -/
structure EngineState where
  budget : Budget
  ledger : List Expense
  deriving DecidableEq

/-- One controller mutation (paired with the wall-clock instant it runs at),
as seen by one budget document:
* `createExpense` inserts the expense and calls `updateBudgetSpending(user,
  category, amount)`;
* `updateExpense` saves the new amount and, only when the amount changed,
  calls `updateBudgetSpending` with `-oldAmount` then with `+newAmount`;
* `deleteExpense` calls `updateBudgetSpending` with `-amount` and removes
  the expense.
A `findOne` miss (bad index) is a 404: no state change. -/
def applyOp (st : EngineState) (now : ℤ) : ExpOp → EngineState
  | .create e =>
    { ledger := st.ledger ++ [e]
      budget := applyIncr now e.category e.amount st.budget }
  | .update i a =>
    match st.ledger[i]? with
    | none => st
    | some e =>
      if a = e.amount then
        { st with ledger := st.ledger.set i { e with amount := a } }
      else
        { ledger := st.ledger.set i { e with amount := a }
          budget := applyIncr now e.category a (applyIncr now e.category (-e.amount) st.budget) }
  | .delete i =>
    match st.ledger[i]? with
    | none => st
    | some e =>
      { ledger := st.ledger.eraseIdx i
        budget := applyIncr now e.category (-e.amount) st.budget }

/-- Run a sequence of expense mutations. -/
def applyOps (st : EngineState) (ops : List (ℤ × ExpOp)) : EngineState :=
  ops.foldl (fun s p => applyOp s p.1 p.2) st

/-- The side conditions under which claim C1 quantifies a mutation: it runs
while the budget window is current (so the incremental `findOne` sees the
budget), and any expense it writes lies in the budget's window/category,
is `completed`, and has a nonnegative amount. -/
def OpValid (b : Budget) : ℤ × ExpOp → Prop
  | (now, .create e) =>
    b.startDate ≤ now ∧ now ≤ b.endDate ∧ matchesRecalc b e = true ∧ 0 ≤ e.amount
  | (now, .update _ a) => b.startDate ≤ now ∧ now ≤ b.endDate ∧ 0 ≤ a
  | (now, .delete _) => b.startDate ≤ now ∧ now ≤ b.endDate

/-- The fields that scope a budget's queries (everything `matchesRecalc` and
the `findOne` filters read, apart from `isActive`). -/
def SameScope (b b' : Budget) : Prop :=
  b'.category = b.category ∧ b'.startDate = b.startDate ∧ b'.endDate = b.endDate

theorem budgetPreSave_spent (b : Budget) : (budgetPreSave b).spent = b.spent := by
  unfold budgetPreSave; split <;> rfl

theorem budgetPreSave_scope (b : Budget) :
    SameScope b (budgetPreSave b) ∧ (budgetPreSave b).isActive = b.isActive ∧
      (budgetPreSave b).amount = b.amount := by
  unfold budgetPreSave SameScope; split <;> simp

theorem updateSpent_spent (b : Budget) (n o : ℚ) (now : ℤ) :
    (updateSpent b n o now).spent = max 0 (b.spent + (n - o)) := by
  unfold updateSpent
  rw [budgetPreSave_spent]

theorem updateSpent_scope (b : Budget) (n o : ℚ) (now : ℤ) :
    SameScope b (updateSpent b n o now) ∧ (updateSpent b n o now).isActive = b.isActive ∧
      (updateSpent b n o now).amount = b.amount := by
  unfold updateSpent
  refine ?_
  have h := budgetPreSave_scope
    { b with
      spent := max 0 (b.spent + (n - o))
      thresholds := ({ b with spent := max 0 (b.spent + (n - o)) } : Budget).thresholds.map fun t =>
        if t.triggered = false ∧ t.percentage ≤
            ({ b with spent := max 0 (b.spent + (n - o)) } : Budget).percentageUsed then
          { t with triggered := true, triggeredAt := some now }
        else t }
  exact h

theorem applyIncr_spent (now : ℤ) (c : ExpCategory) (amt : ℚ) (b : Budget)
    (h : incrMatches b now c = true) :
    (applyIncr now c amt b).spent = max 0 (b.spent + amt) := by
  unfold applyIncr
  rw [if_pos h, updateSpent_spent]
  ring_nf

theorem applyIncr_scope (now : ℤ) (c : ExpCategory) (amt : ℚ) (b : Budget) :
    SameScope b (applyIncr now c amt b) ∧ (applyIncr now c amt b).isActive = b.isActive ∧
      (applyIncr now c amt b).amount = b.amount := by
  unfold applyIncr
  split
  · exact updateSpent_scope b amt 0 now
  · exact ⟨⟨rfl, rfl, rfl⟩, rfl, rfl⟩

theorem matchesRecalc_congr (b b' : Budget) (e : Expense) (h : SameScope b b') :
    matchesRecalc b' e = matchesRecalc b e := by
  obtain ⟨h1, h2, h3⟩ := h
  unfold matchesRecalc
  rw [h1, h2, h3]

theorem recalcSpent_congr (b b' : Budget) (l : List Expense) (h : SameScope b b') :
    recalcSpent b' l = recalcSpent b l := by
  unfold recalcSpent
  rw [List.filter_congr (fun e _ => matchesRecalc_congr b b' e h)]

theorem matchesRecalc_amount (b : Budget) (e : Expense) (a : ℚ) :
    matchesRecalc b { e with amount := a } = matchesRecalc b e := rfl

theorem recalcSpent_nil (b : Budget) : recalcSpent b [] = 0 := rfl

theorem recalcSpent_cons (b : Budget) (e : Expense) (l : List Expense) :
    recalcSpent b (e :: l)
      = (if matchesRecalc b e then e.amount else 0) + recalcSpent b l := by
  unfold recalcSpent
  rw [List.filter_cons]
  by_cases h : matchesRecalc b e
  · rw [if_pos h, if_pos h]; simp
  · rw [if_neg h, if_neg h]; simp

theorem recalcSpent_append_singleton (b : Budget) (l : List Expense) (e : Expense) :
    recalcSpent b (l ++ [e])
      = recalcSpent b l + (if matchesRecalc b e then e.amount else 0) := by
  induction l with
  | nil => rw [List.nil_append, recalcSpent_cons, recalcSpent_nil]; ring
  | cons x xs ih =>
    rw [List.cons_append, recalcSpent_cons, recalcSpent_cons, ih]; ring

theorem recalcSpent_set (b : Budget) (l : List Expense) (i : ℕ) (e e' : Expense)
    (h : l[i]? = some e) :
    recalcSpent b (l.set i e')
      = recalcSpent b l - (if matchesRecalc b e then e.amount else 0)
        + (if matchesRecalc b e' then e'.amount else 0) := by
  induction l generalizing i with
  | nil => simp at h
  | cons x xs ih =>
    cases i with
    | zero =>
      simp only [List.getElem?_cons_zero, Option.some.injEq] at h
      subst h
      rw [List.set_cons_zero, recalcSpent_cons, recalcSpent_cons]
      ring
    | succ n =>
      simp only [List.getElem?_cons_succ] at h
      rw [List.set_cons_succ, recalcSpent_cons, recalcSpent_cons, ih n h]
      ring

theorem recalcSpent_eraseIdx (b : Budget) (l : List Expense) (i : ℕ) (e : Expense)
    (h : l[i]? = some e) :
    recalcSpent b (l.eraseIdx i)
      = recalcSpent b l - (if matchesRecalc b e then e.amount else 0) := by
  induction l generalizing i with
  | nil => simp at h
  | cons x xs ih =>
    cases i with
    | zero =>
      simp only [List.getElem?_cons_zero, Option.some.injEq] at h
      subst h
      rw [List.eraseIdx_cons_zero, recalcSpent_cons]
      ring
    | succ n =>
      simp only [List.getElem?_cons_succ] at h
      rw [List.eraseIdx_cons_succ, recalcSpent_cons, recalcSpent_cons, ih n h]
      ring

theorem recalcSpent_append_match (b : Budget) (l : List Expense) (e : Expense)
    (hme : matchesRecalc b e = true) :
    recalcSpent b (l ++ [e]) = recalcSpent b l + e.amount := by
  rw [recalcSpent_append_singleton, hme]
  simp

theorem recalcSpent_set_amount (b : Budget) (l : List Expense) (i : ℕ) (e : Expense) (a : ℚ)
    (h : l[i]? = some e) (hme : matchesRecalc b e = true) :
    recalcSpent b (l.set i { e with amount := a }) = recalcSpent b l - e.amount + a := by
  have hme2 : matchesRecalc b { e with amount := a } = true := hme
  rw [recalcSpent_set b l i e { e with amount := a } h, hme2, hme]
  simp

theorem recalcSpent_eraseIdx_match (b : Budget) (l : List Expense) (i : ℕ) (e : Expense)
    (h : l[i]? = some e) (hme : matchesRecalc b e = true) :
    recalcSpent b (l.eraseIdx i) = recalcSpent b l - e.amount := by
  rw [recalcSpent_eraseIdx b l i e h, hme]
  simp

theorem recalcSpent_nonneg (b : Budget) (l : List Expense)
    (h : ∀ x ∈ l, 0 ≤ x.amount) : 0 ≤ recalcSpent b l := by
  induction l with
  | nil => simp [recalcSpent_nil]
  | cons x xs ih =>
    rw [recalcSpent_cons]
    have hx := h x (List.mem_cons_self x xs)
    have hxs := ih fun y hy => h y (List.mem_cons_of_mem x hy)
    by_cases hm : matchesRecalc b x
    · rw [if_pos hm]; linarith
    · rw [if_neg hm]; linarith

theorem amount_le_recalcSpent (b : Budget) (l : List Expense) (i : ℕ) (e : Expense)
    (h : l[i]? = some e) (hm : matchesRecalc b e = true)
    (hnn : ∀ x ∈ l, 0 ≤ x.amount) : e.amount ≤ recalcSpent b l := by
  induction l generalizing i with
  | nil => simp at h
  | cons x xs ih =>
    have hxs : ∀ y ∈ xs, 0 ≤ y.amount := fun y hy => hnn y (List.mem_cons_of_mem x hy)
    rw [recalcSpent_cons]
    cases i with
    | zero =>
      simp only [List.getElem?_cons_zero, Option.some.injEq] at h
      subst h
      rw [if_pos hm]
      have := recalcSpent_nonneg b xs hxs
      linarith
    | succ n =>
      simp only [List.getElem?_cons_succ] at h
      have hx := hnn x (List.mem_cons_self x xs)
      have := ih n h hxs
      by_cases hmx : matchesRecalc b x
      · rw [if_pos hmx]; linarith
      · rw [if_neg hmx]; linarith

theorem incrMatches_congr (b b' : Budget) (now : ℤ) (c : ExpCategory)
    (h : SameScope b b') (ha : b'.isActive = b.isActive) :
    incrMatches b' now c = incrMatches b now c := by
  obtain ⟨h1, h2, h3⟩ := h
  unfold incrMatches
  rw [h1, h2, h3, ha]

theorem incrMatches_of_matches (b : Budget) (e : Expense) (now : ℤ)
    (hm : matchesRecalc b e = true) (hact : b.isActive = true)
    (h1 : b.startDate ≤ now) (h2 : now ≤ b.endDate) :
    incrMatches b now e.category = true := by
  have hcat : bcatMatches b.category e.category = true := by
    unfold matchesRecalc at hm
    simp only [Bool.and_eq_true] at hm
    exact hm.1.1.1
  unfold incrMatches
  simp only [Bool.and_eq_true, Bool.or_eq_true, beq_iff_eq, decide_eq_true_eq]
  refine ⟨⟨⟨?_, hact⟩, h1⟩, h2⟩
  cases hb : b.category with
  | total => exact Or.inr rfl
  | cat c0 =>
    unfold bcatMatches at hcat
    rw [hb] at hcat
    simp only [beq_iff_eq] at hcat
    exact Or.inl (by rw [hcat])

/-- The convergence invariant for one budget: the cached `spent` equals the
ledger recomputation, and every ledger entry is a completed in-window,
in-category expense with a nonnegative amount. -/
def SpentInv (st : EngineState) : Prop :=
  st.budget.spent = recalcSpent st.budget st.ledger ∧
    ∀ e ∈ st.ledger, matchesRecalc st.budget e = true ∧ 0 ≤ e.amount

theorem OpValid_congr (b b' : Budget) (p : ℤ × ExpOp)
    (h : SameScope b b') (hv : OpValid b p) : OpValid b' p := by
  obtain ⟨h1, h2, h3⟩ := h
  obtain ⟨now, op⟩ := p
  cases op with
  | create e =>
    obtain ⟨k1, k2, k3, k4⟩ := hv
    exact ⟨h2 ▸ k1, h3 ▸ k2, (matchesRecalc_congr b b' e ⟨h1, h2, h3⟩).trans k3, k4⟩
  | update i a =>
    obtain ⟨k1, k2, k3⟩ := hv
    exact ⟨h2 ▸ k1, h3 ▸ k2, k3⟩
  | delete i =>
    obtain ⟨k1, k2⟩ := hv
    exact ⟨h2 ▸ k1, h3 ▸ k2⟩

theorem applyOp_create (st : EngineState) (now : ℤ) (e : Expense) :
    applyOp st now (.create e)
      = { ledger := st.ledger ++ [e]
          budget := applyIncr now e.category e.amount st.budget } := rfl

theorem applyOp_update_none (st : EngineState) (now : ℤ) (i : ℕ) (a : ℚ)
    (h : st.ledger[i]? = none) : applyOp st now (.update i a) = st := by
  simp only [applyOp]
  rw [h]

theorem applyOp_update_some (st : EngineState) (now : ℤ) (i : ℕ) (a : ℚ) (e : Expense)
    (h : st.ledger[i]? = some e) :
    applyOp st now (.update i a)
      = if a = e.amount then
          { st with ledger := st.ledger.set i { e with amount := a } }
        else
          { ledger := st.ledger.set i { e with amount := a }
            budget := applyIncr now e.category a
              (applyIncr now e.category (-e.amount) st.budget) } := by
  simp only [applyOp]
  rw [h]

theorem applyOp_delete_none (st : EngineState) (now : ℤ) (i : ℕ)
    (h : st.ledger[i]? = none) : applyOp st now (.delete i) = st := by
  simp only [applyOp]
  rw [h]

theorem applyOp_delete_some (st : EngineState) (now : ℤ) (i : ℕ) (e : Expense)
    (h : st.ledger[i]? = some e) :
    applyOp st now (.delete i)
      = { ledger := st.ledger.eraseIdx i
          budget := applyIncr now e.category (-e.amount) st.budget } := by
  simp only [applyOp]
  rw [h]

theorem applyOp_inv (st : EngineState) (now : ℤ) (op : ExpOp)
    (hinv : SpentInv st) (hact : st.budget.isActive = true)
    (hv : OpValid st.budget (now, op)) :
    SpentInv (applyOp st now op) ∧ SameScope st.budget (applyOp st now op).budget ∧
      (applyOp st now op).budget.isActive = true := by
  obtain ⟨hsp, hmem⟩ := hinv
  have hnnl : ∀ x ∈ st.ledger, 0 ≤ x.amount := fun x hx => (hmem x hx).2
  cases op with
  | create e =>
    obtain ⟨h1, h2, hm, hnn⟩ := hv
    have him : incrMatches st.budget now e.category = true :=
      incrMatches_of_matches st.budget e now hm hact h1 h2
    have hscope := applyIncr_scope now e.category e.amount st.budget
    have hspn : 0 ≤ recalcSpent st.budget st.ledger :=
      recalcSpent_nonneg st.budget st.ledger hnnl
    rw [applyOp_create]
    refine ⟨⟨?_, ?_⟩, hscope.1, hscope.2.1.trans hact⟩
    · show (applyIncr now e.category e.amount st.budget).spent = _
      rw [applyIncr_spent now e.category e.amount st.budget him,
        recalcSpent_congr st.budget _ _ hscope.1,
        recalcSpent_append_match st.budget st.ledger e hm, hsp,
        max_eq_right (by linarith)]
    · intro x hx
      rcases List.mem_append.mp hx with hx | hx
      · obtain ⟨hmx, hax⟩ := hmem x hx
        exact ⟨(matchesRecalc_congr _ _ x hscope.1).trans hmx, hax⟩
      · rw [List.mem_singleton.mp hx]
        exact ⟨(matchesRecalc_congr _ _ e hscope.1).trans hm, hnn⟩
  | update i a =>
    obtain ⟨h1, h2, hnn⟩ := hv
    cases hget : st.ledger[i]? with
    | none =>
      rw [applyOp_update_none st now i a hget]
      exact ⟨⟨hsp, hmem⟩, ⟨rfl, rfl, rfl⟩, hact⟩
    | some e =>
      have hein : e ∈ st.ledger := List.getElem?_mem hget
      obtain ⟨hme, hae⟩ := hmem e hein
      have hset : ∀ x ∈ st.ledger.set i { e with amount := a },
          matchesRecalc st.budget x = true ∧ 0 ≤ x.amount := by
        intro x hx
        rcases List.mem_or_eq_of_mem_set hx with hx | hx
        · exact hmem x hx
        · subst hx
          exact ⟨(matchesRecalc_amount st.budget e a) ▸ hme, hnn⟩
      rw [applyOp_update_some st now i a e hget]
      by_cases heq : a = e.amount
      · rw [if_pos heq]
        refine ⟨⟨?_, hset⟩, ⟨rfl, rfl, rfl⟩, hact⟩
        show st.budget.spent = _
        rw [recalcSpent_set_amount st.budget st.ledger i e a hget hme, hsp, heq]
        ring
      · rw [if_neg heq]
        have him : incrMatches st.budget now e.category = true :=
          incrMatches_of_matches st.budget e now hme hact h1 h2
        have hle : e.amount ≤ recalcSpent st.budget st.ledger :=
          amount_le_recalcSpent st.budget st.ledger i e hget hme hnnl
        have hs1 := applyIncr_scope now e.category (-e.amount) st.budget
        have hsp1 : (applyIncr now e.category (-e.amount) st.budget).spent
            = recalcSpent st.budget st.ledger - e.amount := by
          rw [applyIncr_spent now e.category (-e.amount) st.budget him, hsp,
            max_eq_right (by linarith)]
          ring
        have him1 : incrMatches (applyIncr now e.category (-e.amount) st.budget) now e.category
            = true := by
          rw [incrMatches_congr st.budget _ now e.category hs1.1 hs1.2.1]
          exact him
        have hs2 := applyIncr_scope now e.category a
          (applyIncr now e.category (-e.amount) st.budget)
        have hscope : SameScope st.budget
            (applyIncr now e.category a (applyIncr now e.category (-e.amount) st.budget)) := by
          obtain ⟨m1, m2, m3⟩ := hs1.1
          obtain ⟨n1, n2, n3⟩ := hs2.1
          exact ⟨n1.trans m1, n2.trans m2, n3.trans m3⟩
        refine ⟨⟨?_, ?_⟩, hscope, (hs2.2.1.trans hs1.2.1).trans hact⟩
        · show (applyIncr now e.category a _).spent = _
          rw [applyIncr_spent _ _ _ _ him1, hsp1,
            recalcSpent_congr st.budget _ _ hscope,
            recalcSpent_set_amount st.budget st.ledger i e a hget hme,
            max_eq_right (by linarith)]
        · intro x hx
          obtain ⟨hmx, hax⟩ := hset x hx
          exact ⟨(matchesRecalc_congr _ _ x hscope).trans hmx, hax⟩
  | delete i =>
    obtain ⟨h1, h2⟩ := hv
    cases hget : st.ledger[i]? with
    | none =>
      rw [applyOp_delete_none st now i hget]
      exact ⟨⟨hsp, hmem⟩, ⟨rfl, rfl, rfl⟩, hact⟩
    | some e =>
      have hein : e ∈ st.ledger := List.getElem?_mem hget
      obtain ⟨hme, hae⟩ := hmem e hein
      have him : incrMatches st.budget now e.category = true :=
        incrMatches_of_matches st.budget e now hme hact h1 h2
      have hle : e.amount ≤ recalcSpent st.budget st.ledger :=
        amount_le_recalcSpent st.budget st.ledger i e hget hme hnnl
      have hscope := applyIncr_scope now e.category (-e.amount) st.budget
      rw [applyOp_delete_some st now i e hget]
      refine ⟨⟨?_, ?_⟩, hscope.1, hscope.2.1.trans hact⟩
      · show (applyIncr now e.category (-e.amount) st.budget).spent = _
        rw [applyIncr_spent _ _ _ _ him,
          recalcSpent_congr st.budget _ _ hscope.1,
          recalcSpent_eraseIdx_match st.budget st.ledger i e hget hme, hsp,
          max_eq_right (by linarith)]
        ring
      · intro x hx
        obtain ⟨hmx, hax⟩ := hmem x (List.mem_of_mem_eraseIdx hx)
        exact ⟨(matchesRecalc_congr _ _ x hscope.1).trans hmx, hax⟩

theorem applyOps_inv (ops : List (ℤ × ExpOp)) (st : EngineState)
    (hinv : SpentInv st) (hact : st.budget.isActive = true)
    (hv : ∀ p ∈ ops, OpValid st.budget p) :
    SpentInv (applyOps st ops) := by
  induction ops generalizing st with
  | nil => exact hinv
  | cons p rest ih =>
    have hstep := applyOp_inv st p.1 p.2 hinv hact
      (by rw [show ((p.1, p.2) : ℤ × ExpOp) = p from rfl]; exact hv p (List.mem_cons_self p rest))
    exact ih (applyOp st p.1 p.2) hstep.1 hstep.2.2
      fun q hq => OpValid_congr st.budget _ q hstep.2.1 (hv q (List.mem_cons_of_mem p hq))

theorem recalculateBudgetSpending_spent (l : List Expense) (b : Budget) :
    (recalculateBudgetSpending l b).spent = recalcSpent b l := by
  unfold recalculateBudgetSpending
  rw [budgetPreSave_spent]
  split <;> rfl

instance (b : Budget) (p : ℤ × ExpOp) : Decidable (OpValid b p) := by
  obtain ⟨now, op⟩ := p
  cases op with
  | create e => unfold OpValid; exact inferInstance
  | update i a => unfold OpValid; exact inferInstance
  | delete i => unfold OpValid; exact inferInstance

/-- Claim C1: for any sequence of expense creates, updates, and deletes within
a budget's window and category, running the full recompute
(`recalculateBudgetSpending`, which sums completed expenses in
`[startDate, endDate]` from the ledger) after the sequence yields the same
`spent` value as the incrementally-maintained `spent` produced by applying the
per-mutation deltas (`updateBudgetSpending` on create/update/delete) over the
same sequence.  (In this rational-number model the two agree exactly.) -/
theorem budget_spent_convergence (b : Budget) (ops : List (ℤ × ExpOp))
    (hspent : b.spent = 0) (hact : b.isActive = true)
    (hops : ∀ p ∈ ops, OpValid b p) :
    (recalculateBudgetSpending (applyOps ⟨b, []⟩ ops).ledger
        (applyOps ⟨b, []⟩ ops).budget).spent
      = (applyOps ⟨b, []⟩ ops).budget.spent := by
  have hinv : SpentInv ⟨b, []⟩ := by
    constructor
    · show b.spent = recalcSpent b []
      rw [hspent, recalcSpent_nil]
    · intro e he
      exact absurd he (List.not_mem_nil e)
  have h := applyOps_inv ops ⟨b, []⟩ hinv hact hops
  rw [recalculateBudgetSpending_spent]
  exact h.1.symm

/-- A concrete budget used in the witness instantiations. -/
def wBudget : Budget :=
  { category := BCategory.cat ExpCategory.food
    amount := 100
    startDate := 0
    endDate := 30
    spent := 0
    thresholds := [⟨50, false, none⟩, ⟨90, false, none⟩, ⟨100, false, none⟩]
    defaultThresholds := [50, 75, 90, 100]
    isActive := true }

/-- Witness for C1: a concrete create–update–delete run on `wBudget` where
all hypotheses hold. -/
theorem budget_spent_convergence_witness :
    (recalculateBudgetSpending
        (applyOps ⟨wBudget, []⟩
          [(1, ExpOp.create ⟨30, ExpCategory.food, 5, ExpStatus.completed⟩),
           (2, ExpOp.create ⟨20, ExpCategory.food, 7, ExpStatus.completed⟩),
           (3, ExpOp.update 0 12), (4, ExpOp.delete 1)]).ledger
        (applyOps ⟨wBudget, []⟩
          [(1, ExpOp.create ⟨30, ExpCategory.food, 5, ExpStatus.completed⟩),
           (2, ExpOp.create ⟨20, ExpCategory.food, 7, ExpStatus.completed⟩),
           (3, ExpOp.update 0 12), (4, ExpOp.delete 1)]).budget).spent
      = (applyOps ⟨wBudget, []⟩
          [(1, ExpOp.create ⟨30, ExpCategory.food, 5, ExpStatus.completed⟩),
           (2, ExpOp.create ⟨20, ExpCategory.food, 7, ExpStatus.completed⟩),
           (3, ExpOp.update 0 12), (4, ExpOp.delete 1)]).budget.spent :=
  budget_spent_convergence wBudget
    [(1, ExpOp.create ⟨30, ExpCategory.food, 5, ExpStatus.completed⟩),
     (2, ExpOp.create ⟨20, ExpCategory.food, 7, ExpStatus.completed⟩),
     (3, ExpOp.update 0 12), (4, ExpOp.delete 1)]
    rfl rfl (by decide)

theorem budgetPreSave_id (b : Budget) (h : b.thresholds.isEmpty = false) :
    budgetPreSave b = b := by
  unfold budgetPreSave
  rw [h]
  simp

theorem updateSpent_thresholds (b : Budget) (n o : ℚ) (now : ℤ)
    (hne : b.thresholds.isEmpty = false) :
    (updateSpent b n o now).thresholds
      = b.thresholds.map fun t =>
          if t.triggered = false ∧ t.percentage ≤
              ({ b with spent := max 0 (b.spent + (n - o)) } : Budget).percentageUsed then
            { t with triggered := true, triggeredAt := some now }
          else t := by
  unfold updateSpent
  rw [budgetPreSave_id]
  show (b.thresholds.map _).isEmpty = false
  rcases hl : b.thresholds with _ | ⟨t, ts⟩
  · rw [hl] at hne; simp at hne
  · simp

/-- Claim C4: the incremental update `updateSpent` adds the signed delta to
`spent` clamping the result at ≥ 0, and may only flip a threshold's
`triggered` flag from false to true (stamping `triggeredAt` with the current
instant when it does); every threshold already triggered before the call is
left untouched, whatever the delta. -/
theorem updateSpent_threshold_monotone (b : Budget) (n o : ℚ) (now : ℤ) :
    (updateSpent b n o now).spent = max 0 (b.spent + (n - o)) ∧
    ∀ i, ∀ hi : i < b.thresholds.length,
      ∃ hi' : i < (updateSpent b n o now).thresholds.length,
        ((b.thresholds.get ⟨i, hi⟩).triggered = true →
          (updateSpent b n o now).thresholds.get ⟨i, hi'⟩ = b.thresholds.get ⟨i, hi⟩) ∧
        ((b.thresholds.get ⟨i, hi⟩).triggered = false →
          (updateSpent b n o now).thresholds.get ⟨i, hi'⟩ = b.thresholds.get ⟨i, hi⟩ ∨
            (((updateSpent b n o now).thresholds.get ⟨i, hi'⟩).triggered = true ∧
              ((updateSpent b n o now).thresholds.get ⟨i, hi'⟩).triggeredAt = some now ∧
              ((updateSpent b n o now).thresholds.get ⟨i, hi'⟩).percentage
                = (b.thresholds.get ⟨i, hi⟩).percentage)) := by
  refine ⟨updateSpent_spent b n o now, ?_⟩
  intro i hi
  have hne : b.thresholds.isEmpty = false := by
    rcases hl : b.thresholds with _ | ⟨t, ts⟩
    · rw [hl] at hi; simp at hi
    · rfl
  have hth := updateSpent_thresholds b n o now hne
  have hlen : (updateSpent b n o now).thresholds.length = b.thresholds.length := by
    rw [hth, List.length_map]
  refine ⟨hlen ▸ hi, ?_⟩
  have hget : (updateSpent b n o now).thresholds.get ⟨i, hlen ▸ hi⟩
      = (if (b.thresholds.get ⟨i, hi⟩).triggered = false ∧
            (b.thresholds.get ⟨i, hi⟩).percentage ≤
              ({ b with spent := max 0 (b.spent + (n - o)) } : Budget).percentageUsed then
          { b.thresholds.get ⟨i, hi⟩ with triggered := true, triggeredAt := some now }
        else b.thresholds.get ⟨i, hi⟩) := by
    simp only [List.get_eq_getElem, hth, List.getElem_map]
  constructor
  · intro htr
    rw [hget, if_neg]
    intro hcond
    rw [htr] at hcond
    exact absurd hcond.1 (by simp)
  · intro htr
    by_cases hp : (b.thresholds.get ⟨i, hi⟩).percentage ≤
        ({ b with spent := max 0 (b.spent + (n - o)) } : Budget).percentageUsed
    · right
      rw [hget, if_pos ⟨htr, hp⟩]
      exact ⟨rfl, rfl, rfl⟩
    · left
      rw [hget, if_neg]
      intro hcond
      exact hp hcond.2

/-- A second concrete budget, with one already-triggered threshold, used in
witness instantiations. -/
def wBudget2 : Budget :=
  { category := BCategory.cat ExpCategory.food
    amount := 100
    startDate := 0
    endDate := 30
    spent := 60
    thresholds := [⟨50, true, some 1⟩, ⟨90, false, none⟩]
    defaultThresholds := [50, 75, 90, 100]
    isActive := true }

/-- Witness for C4: on `wBudget2` the already-triggered 50% threshold is left
untouched by a further delta. -/
theorem updateSpent_threshold_monotone_witness :
    (updateSpent wBudget2 10 0 5).spent = max 0 (wBudget2.spent + (10 - 0)) ∧
      (updateSpent wBudget2 10 0 5).thresholds.get ⟨0, by decide⟩
        = wBudget2.thresholds.get ⟨0, by decide⟩ := by
  refine ⟨(updateSpent_threshold_monotone wBudget2 10 0 5).1, ?_⟩
  obtain ⟨hi', h⟩ := (updateSpent_threshold_monotone wBudget2 10 0 5).2 0 (by decide)
  exact h.1 (by decide)

theorem budgetPreSave_amount (b : Budget) : (budgetPreSave b).amount = b.amount := by
  unfold budgetPreSave
  split <;> rfl

theorem recalculateBudgetSpending_amount (l : List Expense) (b : Budget) :
    (recalculateBudgetSpending l b).amount = b.amount := by
  unfold recalculateBudgetSpending
  rw [budgetPreSave_amount]
  split <;> rfl

theorem recalc_percentageUsed (l : List Expense) (b : Budget) :
    (recalculateBudgetSpending l b).percentageUsed
      = min 100 (recalcSpent b l / b.amount * 100) := by
  unfold Budget.percentageUsed
  rw [recalculateBudgetSpending_spent, recalculateBudgetSpending_amount]

theorem recalc_thresholds_lt (l : List Expense) (b : Budget)
    (hlt : recalcSpent b l < b.amount) (hne : b.thresholds.isEmpty = false) :
    (recalculateBudgetSpending l b).thresholds
      = b.thresholds.map fun t =>
          if recalcSpent b l / b.amount * 100 < t.percentage then
            { t with triggered := false, triggeredAt := none }
          else t := by
  have hmapne : (b.thresholds.map fun t =>
      if recalcSpent b l / b.amount * 100 < t.percentage then
        { t with triggered := false, triggeredAt := none }
      else t).isEmpty = false := by
    rcases hl : b.thresholds with _ | ⟨t, ts⟩
    · rw [hl] at hne; simp at hne
    · simp
  unfold recalculateBudgetSpending
  rw [if_pos hlt, budgetPreSave_id
    { b with
      spent := recalcSpent b l
      thresholds := b.thresholds.map fun t =>
        if recalcSpent b l / b.amount * 100 < t.percentage then
          { t with triggered := false, triggeredAt := none }
        else t } hmapne]

theorem recalc_thresholds_ge (l : List Expense) (b : Budget)
    (hge : ¬recalcSpent b l < b.amount) (hne : b.thresholds.isEmpty = false) :
    (recalculateBudgetSpending l b).thresholds = b.thresholds := by
  unfold recalculateBudgetSpending
  rw [if_neg hge, budgetPreSave_id { b with spent := recalcSpent b l } hne]

/-- Claim C5: the full recompute (`recalculateBudgetSpending`) sets `spent`
to the sum of completed matching expenses in the window, and afterwards every
threshold whose percentage strictly exceeds the recomputed `percentageUsed`
has `triggered = false` (with `triggeredAt` cleared), while thresholds at or
below the recomputed percentage keep their prior state; this holds for all
budgets with a positive amount and in-range (≤ 100) threshold percentages,
including when the recomputed spend is ≥ the budget amount. -/
theorem recalc_resets_thresholds (ledger : List Expense) (b : Budget)
    (hamt : 0 < b.amount) (hper : ∀ t ∈ b.thresholds, t.percentage ≤ 100) :
    (recalculateBudgetSpending ledger b).spent = recalcSpent b ledger ∧
    ∀ i, ∀ hi : i < b.thresholds.length,
      ∃ hi' : i < (recalculateBudgetSpending ledger b).thresholds.length,
        ((b.thresholds.get ⟨i, hi⟩).percentage
            > (recalculateBudgetSpending ledger b).percentageUsed →
          ((recalculateBudgetSpending ledger b).thresholds.get ⟨i, hi'⟩).triggered = false ∧
            ((recalculateBudgetSpending ledger b).thresholds.get ⟨i, hi'⟩).triggeredAt
              = none) ∧
        ((b.thresholds.get ⟨i, hi⟩).percentage
            ≤ (recalculateBudgetSpending ledger b).percentageUsed →
          (recalculateBudgetSpending ledger b).thresholds.get ⟨i, hi'⟩
            = b.thresholds.get ⟨i, hi⟩) := by
  refine ⟨recalculateBudgetSpending_spent ledger b, ?_⟩
  intro i hi
  have hne : b.thresholds.isEmpty = false := by
    rcases hl : b.thresholds with _ | ⟨t, ts⟩
    · rw [hl] at hi; simp at hi
    · rfl
  by_cases hlt : recalcSpent b ledger < b.amount
  · have hth := recalc_thresholds_lt ledger b hlt hne
    have hlen : (recalculateBudgetSpending ledger b).thresholds.length
        = b.thresholds.length := by
      rw [hth, List.length_map]
    refine ⟨hlen ▸ hi, ?_⟩
    have hraw : recalcSpent b ledger / b.amount * 100 < 100 := by
      have h1 : recalcSpent b ledger / b.amount < 1 := (div_lt_one hamt).mpr hlt
      nlinarith
    have hpct : (recalculateBudgetSpending ledger b).percentageUsed
        = recalcSpent b ledger / b.amount * 100 := by
      rw [recalc_percentageUsed]
      exact min_eq_right (le_of_lt hraw)
    have hget : (recalculateBudgetSpending ledger b).thresholds.get ⟨i, hlen ▸ hi⟩
        = (if recalcSpent b ledger / b.amount * 100
              < (b.thresholds.get ⟨i, hi⟩).percentage then
            { b.thresholds.get ⟨i, hi⟩ with triggered := false, triggeredAt := none }
          else b.thresholds.get ⟨i, hi⟩) := by
      simp only [List.get_eq_getElem, hth, List.getElem_map]
    constructor
    · intro hgt
      rw [hpct] at hgt
      rw [hget, if_pos hgt]
      exact ⟨rfl, rfl⟩
    · intro hle
      rw [hpct] at hle
      rw [hget, if_neg (not_lt.mpr hle)]
  · have hth := recalc_thresholds_ge ledger b hlt hne
    have hlen : (recalculateBudgetSpending ledger b).thresholds.length
        = b.thresholds.length := by
      rw [hth]
    refine ⟨hlen ▸ hi, ?_⟩
    have hraw : (100 : ℚ) ≤ recalcSpent b ledger / b.amount * 100 := by
      have h1 : (1 : ℚ) ≤ recalcSpent b ledger / b.amount :=
        (one_le_div hamt).mpr (not_lt.mp hlt)
      nlinarith
    have hpct : (recalculateBudgetSpending ledger b).percentageUsed = 100 := by
      rw [recalc_percentageUsed]
      exact min_eq_left hraw
    have hget : (recalculateBudgetSpending ledger b).thresholds.get ⟨i, hlen ▸ hi⟩
        = b.thresholds.get ⟨i, hi⟩ := by
      simp only [List.get_eq_getElem, hth]
    constructor
    · intro hgt
      rw [hpct] at hgt
      exact absurd hgt
        (not_lt.mpr (hper (b.thresholds.get ⟨i, hi⟩) (b.thresholds.get_mem i hi)))
    · intro _
      exact hget

/-- A concrete one-expense ledger used in witness instantiations. -/
def wLedger : List Expense := [⟨30, ExpCategory.food, 5, ExpStatus.completed⟩]

/-- Witness for C5: after recomputing `wBudget2` (drifted `spent = 60`, 50%
threshold triggered) against a ledger summing to 30, the 50% threshold is
reset to untriggered. -/
theorem recalc_resets_thresholds_witness :
    (recalculateBudgetSpending wLedger wBudget2).thresholds[0]?.map Threshold.triggered
      = some false := by
  obtain ⟨hi', h⟩ :=
    (recalc_resets_thresholds wLedger wBudget2 (by decide) (by decide)).2 0 (by decide)
  have hrs : recalcSpent wBudget2 wLedger = 30 := by
    norm_num [recalcSpent, wLedger, wBudget2, matchesRecalc, bcatMatches]
  have hgt : (wBudget2.thresholds.get ⟨0, by decide⟩).percentage
      > (recalculateBudgetSpending wLedger wBudget2).percentageUsed := by
    rw [recalc_percentageUsed, hrs]
    show (50 : ℚ) > min 100 (30 / wBudget2.amount * 100)
    show (50 : ℚ) > min 100 (30 / 100 * 100)
    norm_num [min_def]
  have h2 := h.1 hgt
  rw [List.getElem?_eq_getElem hi']
  simp only [List.get_eq_getElem] at h2
  simp [h2.1]

/-- `source` enum of a contribution log entry. -/
inductive ContribSource
  | manual | autoSave | bonus
  deriving DecidableEq

/-- One entry of the goal's `contributions` array (the description string is
elided). -/
structure Contribution where
  amount : ℚ
  date : ℤ
  source : ContribSource
  deriving DecidableEq

/-- The goal's `autoSave` sub-document (the `frequency` / `nextContribution`
scheduling fields, which no verified claim reads, are elided). -/
structure AutoSavePolicy where
  enabled : Bool
  amount : ℚ
  deriving DecidableEq

/-- A goal document (fields read by the goal-tracking paths). -/
structure Goal where
  targetAmount : ℚ
  currentAmount : ℚ
  contributions : List Contribution
  isCompleted : Bool
  completedAt : Option ℤ
  autoSave : AutoSavePolicy
  isActive : Bool
  deriving DecidableEq

/-- `goalSchema.pre('save')`: auto-complete the goal (setting `completedAt`)
the first time `currentAmount` reaches `targetAmount`. -/
def goalPreSave (now : ℤ) (g : Goal) : Goal :=
  if g.targetAmount ≤ g.currentAmount ∧ g.isCompleted = false then
    { g with isCompleted := true, completedAt := some now }
  else g

/-- `goalSchema.methods.addContribution(amount, description, source)`: throws
on a non-positive amount; otherwise clamps `currentAmount` at `targetAmount`,
appends the actually-applied (clamped) amount to the contributions log, and
saves.  The save enforces the schema's `min: 0` on the new log entry
(mongoose validation) and runs the pre-save hook. -/
def addContribution (g : Goal) (amount : ℚ) (source : ContribSource) (now : ℤ) :
    Except String Goal :=
  if amount ≤ 0 then .error "Contribution amount must be positive"
  else if min (g.currentAmount + amount) g.targetAmount - g.currentAmount < 0 then
    .error "Goal validation failed: contribution amount must be at least 0"
  else
    .ok (goalPreSave now
      { g with
        currentAmount := min (g.currentAmount + amount) g.targetAmount
        contributions := g.contributions ++
          [⟨min (g.currentAmount + amount) g.targetAmount - g.currentAmount, now, source⟩] })

/-- `createGoal` (goal controller): validates target/current amounts, creates
the document (running the pre-save hook), and, when the requested initial
`currentAmount` is positive, additionally calls
`addContribution(currentAmount, 'Initial contribution', 'manual')` on the
already-initialized goal. -/
def createGoal (targetAmount currentAmount : ℚ) (now : ℤ) : Except String Goal :=
  if targetAmount ≤ 0 then .error "Target amount must be greater than 0"
  else if currentAmount < 0 then .error "Current amount cannot be negative"
  else if targetAmount < 1 / 100 then
    .error "Goal validation failed: target amount must be at least 0.01"
  else if 0 < currentAmount then
    addContribution
      (goalPreSave now
        { targetAmount := targetAmount
          currentAmount := currentAmount
          contributions := []
          isCompleted := false
          completedAt := none
          autoSave := ⟨false, 0⟩
          isActive := true })
      currentAmount .manual now
  else
    .ok (goalPreSave now
      { targetAmount := targetAmount
        currentAmount := currentAmount
        contributions := []
        isCompleted := false
        completedAt := none
        autoSave := ⟨false, 0⟩
        isActive := true })

/-- The sum of the amounts recorded in a contribution log. -/
def contribSum (l : List Contribution) : ℚ :=
  (l.map Contribution.amount).sum

/-- One persisted `addContribution` attempt: a thrown error leaves the stored
goal unchanged. -/
def contribStep (now : ℤ) (amount : ℚ) (g : Goal) : Goal :=
  match addContribution g amount .manual now with
  | .ok g1 => g1
  | .error _ => g

/-- Run a sequence of contribution attempts (instant, amount). -/
def runContribs (g : Goal) (ops : List (ℤ × ℚ)) : Goal :=
  ops.foldl (fun g p => contribStep p.1 p.2 g) g

/-- The clamp invariant relative to the initial `currentAmount` requested at
creation: bounds on `currentAmount`, and the contribution log summing to the
growth of `currentAmount` since creation. -/
def GoalInv (c : ℚ) (g : Goal) : Prop :=
  0 ≤ g.currentAmount ∧ g.currentAmount ≤ g.targetAmount ∧ 0 < g.targetAmount ∧
    contribSum g.contributions = g.currentAmount - c

theorem goalPreSave_fields (now : ℤ) (g : Goal) :
    (goalPreSave now g).currentAmount = g.currentAmount ∧
      (goalPreSave now g).targetAmount = g.targetAmount ∧
      (goalPreSave now g).contributions = g.contributions ∧
      (goalPreSave now g).autoSave = g.autoSave ∧
      (goalPreSave now g).isActive = g.isActive := by
  unfold goalPreSave
  split <;> exact ⟨rfl, rfl, rfl, rfl, rfl⟩

theorem contribSum_append (l : List Contribution) (x : Contribution) :
    contribSum (l ++ [x]) = contribSum l + x.amount := by
  simp [contribSum]

theorem addContribution_ok (g : Goal) (a : ℚ) (s : ContribSource) (now : ℤ)
    (ha : 0 < a) (hle : g.currentAmount ≤ g.targetAmount) :
    addContribution g a s now
      = .ok (goalPreSave now
          { g with
            currentAmount := min (g.currentAmount + a) g.targetAmount
            contributions := g.contributions ++
              [⟨min (g.currentAmount + a) g.targetAmount - g.currentAmount, now, s⟩] }) := by
  unfold addContribution
  rw [if_neg (not_le.mpr ha), if_neg]
  simp only [not_lt, sub_nonneg]
  exact le_min (by linarith) hle

theorem addContribution_err_nonpos (g : Goal) (a : ℚ) (s : ContribSource) (now : ℤ)
    (ha : a ≤ 0) :
    addContribution g a s now = .error "Contribution amount must be positive" := by
  unfold addContribution
  rw [if_pos ha]

theorem contribStep_ok (now : ℤ) (a : ℚ) (g g1 : Goal)
    (h : addContribution g a .manual now = .ok g1) : contribStep now a g = g1 := by
  unfold contribStep
  rw [h]

theorem contribStep_err (now : ℤ) (a : ℚ) (g : Goal) (e : String)
    (h : addContribution g a .manual now = .error e) : contribStep now a g = g := by
  unfold contribStep
  rw [h]

theorem contribStep_inv (c : ℚ) (now : ℤ) (a : ℚ) (g : Goal) (hinv : GoalInv c g) :
    GoalInv c (contribStep now a g) := by
  obtain ⟨h0, hle, hpos, hsum⟩ := hinv
  by_cases ha : a ≤ 0
  · rw [contribStep_err now a g _ (addContribution_err_nonpos g a .manual now ha)]
    exact ⟨h0, hle, hpos, hsum⟩
  · rw [contribStep_ok now a g _
      (addContribution_ok g a .manual now (not_le.mp ha) hle)]
    obtain ⟨f1, f2, f3, _, _⟩ := goalPreSave_fields now
      { g with
        currentAmount := min (g.currentAmount + a) g.targetAmount
        contributions := g.contributions ++
          [⟨min (g.currentAmount + a) g.targetAmount - g.currentAmount, now, .manual⟩] }
    refine ⟨?_, ?_, ?_, ?_⟩
    · rw [f1]
      exact le_min (by linarith [not_le.mp ha]) (by linarith)
    · rw [f1, f2]
      exact min_le_right _ _
    · rw [f2]
      exact hpos
    · rw [f3, f1, contribSum_append, hsum]
      ring

theorem runContribs_inv (c : ℚ) (ops : List (ℤ × ℚ)) (g : Goal) (hinv : GoalInv c g) :
    GoalInv c (runContribs g ops) := by
  induction ops generalizing g with
  | nil => exact hinv
  | cons p rest ih => exact ih _ (contribStep_inv c p.1 p.2 g hinv)

theorem goalPreSave_currentAmount (now : ℤ) (g : Goal) :
    (goalPreSave now g).currentAmount = g.currentAmount := by
  unfold goalPreSave
  split <;> rfl

theorem goalPreSave_targetAmount (now : ℤ) (g : Goal) :
    (goalPreSave now g).targetAmount = g.targetAmount := by
  unfold goalPreSave
  split <;> rfl

theorem goalPreSave_contributions (now : ℤ) (g : Goal) :
    (goalPreSave now g).contributions = g.contributions := by
  unfold goalPreSave
  split <;> rfl

theorem createGoal_inv (t c : ℚ) (now : ℤ) (g0 : Goal)
    (htc : c ≤ t) (h : createGoal t c now = .ok g0) : GoalInv c g0 := by
  unfold createGoal at h
  by_cases h1 : t ≤ 0
  · rw [if_pos h1] at h
    exact absurd h (by simp)
  rw [if_neg h1] at h
  by_cases h2 : c < 0
  · rw [if_pos h2] at h
    exact absurd h (by simp)
  rw [if_neg h2] at h
  by_cases h3 : t < 1 / 100
  · rw [if_pos h3] at h
    exact absurd h (by simp)
  rw [if_neg h3] at h
  have hc0 : 0 ≤ c := not_lt.mp h2
  have ht0 : 0 < t := not_le.mp h1
  by_cases h4 : 0 < c
  · rw [if_pos h4] at h
    rw [addContribution_ok _ c .manual now h4
      (by rw [goalPreSave_currentAmount, goalPreSave_targetAmount]; exact htc)] at h
    rw [Except.ok.injEq] at h
    subst h
    refine ⟨?_, ?_, ?_, ?_⟩ <;>
      simp only [GoalInv, goalPreSave_currentAmount, goalPreSave_targetAmount,
        goalPreSave_contributions, contribSum_append]
    · exact le_min (by linarith) (by linarith)
    · exact min_le_right _ _
    · exact ht0
    · show contribSum [] + _ = _
      simp [contribSum]
  · rw [if_neg h4] at h
    have hc : c = 0 := le_antisymm (not_lt.mp h4) hc0
    rw [Except.ok.injEq] at h
    subst h
    refine ⟨?_, ?_, ?_, ?_⟩ <;>
      simp only [goalPreSave_currentAmount, goalPreSave_targetAmount,
        goalPreSave_contributions]
    · exact hc0
    · exact htc
    · exact ht0
    · show contribSum [] = c - c
      simp [contribSum]

/-- Counterexample for claim C2: creating a goal with target 1000 and a
non-zero initial `currentAmount = 100` double-applies the initial amount
(`Goal.create` stores it, then `addContribution` adds it again), so the goal
ends with `currentAmount = 200` while its contribution log records only the
single 100 entry: the log sum does not equal `currentAmount`. -/
theorem goal_log_sum_cex :
    (createGoal 1000 100 0).map
        (fun g => (contribSum g.contributions, g.currentAmount))
      = Except.ok ((100 : ℚ), (200 : ℚ)) ∧ (100 : ℚ) ≠ 200 := by
  constructor
  · norm_num [createGoal, addContribution, goalPreSave, contribSum, min_def,
      Except.map, Except.bind]
  · norm_num

/-- Claim C2 (amended): for every goal created with initial amount
`0 ≤ c ≤ target`, after any sequence of contribution attempts
`0 ≤ currentAmount ≤ targetAmount` holds, and the contribution log sums to
`currentAmount - c` (creation with `c > 0` double-counts `c`: it is stored by
`Goal.create` and then re-added by the follow-up `addContribution`, whose log
entry records only the clamped re-added part). -/
theorem goal_clamp_invariant (t c : ℚ) (now : ℤ) (ops : List (ℤ × ℚ)) (g0 : Goal)
    (htc : c ≤ t) (hcreate : createGoal t c now = .ok g0) :
    0 ≤ (runContribs g0 ops).currentAmount ∧
      (runContribs g0 ops).currentAmount ≤ (runContribs g0 ops).targetAmount ∧
      contribSum (runContribs g0 ops).contributions
        = (runContribs g0 ops).currentAmount - c := by
  have h := runContribs_inv c ops g0 (createGoal_inv t c now g0 htc hcreate)
  exact ⟨h.1, h.2.1, h.2.2.2⟩

/-- The stored result of `createGoal 1000 100 0` (the initial 100 is
double-applied, see `goal_log_sum_cex`). -/
def wGoal0 : Goal :=
  { targetAmount := 1000
    currentAmount := 200
    contributions := [⟨100, 0, .manual⟩]
    isCompleted := false
    completedAt := none
    autoSave := ⟨false, 0⟩
    isActive := true }

/-- Witness for C2 (amended), on a concrete creation and contribution run. -/
theorem goal_clamp_invariant_witness :
    0 ≤ (runContribs wGoal0 [(1, 200), (2, 900)]).currentAmount ∧
      (runContribs wGoal0 [(1, 200), (2, 900)]).currentAmount
        ≤ (runContribs wGoal0 [(1, 200), (2, 900)]).targetAmount ∧
      contribSum (runContribs wGoal0 [(1, 200), (2, 900)]).contributions
        = (runContribs wGoal0 [(1, 200), (2, 900)]).currentAmount - 100 :=
  goal_clamp_invariant 1000 100 0 [(1, 200), (2, 900)] wGoal0 (by norm_num)
    (by norm_num [createGoal, addContribution, goalPreSave, wGoal0, min_def])

/-- Claim C3: with target 1000 and current 700, a 500 contribution is
silently clamped by the engine (`addContribution`): the appended ledger entry
records 300 (not 500), `currentAmount` becomes exactly 1000, and
`isCompleted` flips to true (stamping `completedAt`). -/
theorem goal_overflow_clamp :
    ((createGoal 1000 0 0).bind fun g => addContribution g 700 .manual 1)
        = Except.ok
            { targetAmount := 1000
              currentAmount := 700
              contributions := [⟨700, 1, .manual⟩]
              isCompleted := false
              completedAt := none
              autoSave := ⟨false, 0⟩
              isActive := true } ∧
      (((createGoal 1000 0 0).bind fun g => addContribution g 700 .manual 1).bind
          fun g => addContribution g 500 .manual 2)
        = Except.ok
            { targetAmount := 1000
              currentAmount := 1000
              contributions := [⟨700, 1, .manual⟩, ⟨300, 2, .manual⟩]
              isCompleted := true
              completedAt := some 2
              autoSave := ⟨false, 0⟩
              isActive := true } := by
  constructor
  · norm_num [createGoal, addContribution, goalPreSave, min_def, Except.bind]
  · norm_num [createGoal, addContribution, goalPreSave, min_def, Except.bind]

/-- `contributeToGoal` (goal controller): amount check, then `findOne` with
`isActive: true`, then completed-goal rejection, then the remaining-target
pre-check, then `addContribution(amount, description, 'manual')`. -/
def contributeToGoal (g : Goal) (amount : ℚ) (now : ℤ) : Except String Goal :=
  if amount ≤ 0 then .error "Valid contribution amount is required"
  else if g.isActive = false then .error "Goal not found"
  else if g.isCompleted then .error "Goal is already completed"
  else if g.targetAmount - g.currentAmount < amount then
    .error "Contribution amount exceeds remaining target"
  else addContribution g amount .manual now

/-- `updateGoal` (goal controller), restricted to a `targetAmount` update:
rejects completed goals, applies the field, validates (schema
`min: 0.01`), and saves (running the pre-save hook). -/
def updateGoalTarget (g : Goal) (newTarget : ℚ) (now : ℤ) : Except String Goal :=
  if g.isCompleted then .error "Cannot update completed goal"
  else if newTarget < 1 / 100 then
    .error "Goal validation failed: target amount must be at least 0.01"
  else .ok (goalPreSave now { g with targetAmount := newTarget })

/-- One iteration of the `processAutoSave` sweep as seen by a single goal:
the goal is contributed to only when `findAutoSaveDue` selects it
(`autoSave.enabled`, not completed, active; the `nextContribution ≤ now`
clause is elided with the scheduling fields); a thrown error is caught by
the loop's try/catch, leaving the stored goal unchanged. -/
def autoSaveContribute (g : Goal) (now : ℤ) : Goal :=
  if g.autoSave.enabled = true ∧ g.isCompleted = false ∧ g.isActive = true then
    match addContribution g g.autoSave.amount .autoSave now with
    | .ok g1 => g1
    | .error _ => g
  else g

/-- A goal operation from the controller surface, as stored (an operation
that throws leaves the stored goal unchanged). -/
inductive GoalOp
  | contribute (amount : ℚ)
  | updateTarget (newTarget : ℚ)
  | autoContribute
  deriving DecidableEq

def goalStep (g : Goal) : ℤ × GoalOp → Goal
  | (now, .contribute a) =>
    match contributeToGoal g a now with
    | .ok g1 => g1
    | .error _ => g
  | (now, .updateTarget nt) =>
    match updateGoalTarget g nt now with
    | .ok g1 => g1
    | .error _ => g
  | (now, .autoContribute) => autoSaveContribute g now

def runGoalOps (g : Goal) (ops : List (ℤ × GoalOp)) : Goal :=
  ops.foldl goalStep g

theorem goalStep_completed (g : Goal) (p : ℤ × GoalOp) (hc : g.isCompleted = true) :
    goalStep g p = g := by
  obtain ⟨now, op⟩ := p
  cases op with
  | contribute a =>
    show (match contributeToGoal g a now with
      | .ok g1 => g1
      | .error _ => g) = g
    unfold contributeToGoal
    by_cases ha : a ≤ 0
    · rw [if_pos ha]
    · rw [if_neg ha]
      by_cases hA : g.isActive = false
      · rw [if_pos hA]
      · rw [if_neg hA, if_pos hc]
  | updateTarget nt =>
    show (match updateGoalTarget g nt now with
      | .ok g1 => g1
      | .error _ => g) = g
    unfold updateGoalTarget
    rw [if_pos hc]
  | autoContribute =>
    show autoSaveContribute g now = g
    unfold autoSaveContribute
    rw [if_neg]
    intro hcond
    rw [hc] at hcond
    exact absurd hcond.2.1 (by simp)

/-- Claim C6: once a goal's `isCompleted` is true, no further contribution,
target update, or auto-save operation reverts it to false, and `completedAt`
is never overwritten afterwards; `completedAt` is assigned by the save hook
exactly when `currentAmount` first reaches `targetAmount` on a
not-yet-completed goal. -/
theorem goal_completion_monotone (g : Goal) (ops : List (ℤ × GoalOp))
    (hc : g.isCompleted = true) :
    ((runGoalOps g ops).isCompleted = true ∧
      (runGoalOps g ops).completedAt = g.completedAt) ∧
    ∀ g1 : Goal, ∀ now : ℤ, g1.isCompleted = false →
      g1.targetAmount ≤ g1.currentAmount →
      (goalPreSave now g1).isCompleted = true ∧
        (goalPreSave now g1).completedAt = some now := by
  constructor
  · have hrun : runGoalOps g ops = g := by
      induction ops with
      | nil => rfl
      | cons p rest ih =>
        show runGoalOps (goalStep g p) rest = g
        rw [goalStep_completed g p hc]
        exact ih
    rw [hrun]
    exact ⟨hc, rfl⟩
  · intro g1 now h1 h2
    unfold goalPreSave
    rw [if_pos ⟨h2, h1⟩]
    exact ⟨rfl, rfl⟩

/-- A concrete completed goal used in witness instantiations. -/
def wGoalDone : Goal :=
  { targetAmount := 500
    currentAmount := 500
    contributions := [⟨500, 3, .manual⟩]
    isCompleted := true
    completedAt := some 3
    autoSave := ⟨true, 25⟩
    isActive := true }

/-- Witness for C6: a completed goal survives a contribution attempt, a
target update attempt, and an auto-save sweep with `isCompleted` still true
and `completedAt` untouched. -/
theorem goal_completion_monotone_witness :
    (runGoalOps wGoalDone
        [(4, .contribute 10), (5, .updateTarget 800), (6, .autoContribute)]).isCompleted
          = true ∧
      (runGoalOps wGoalDone
        [(4, .contribute 10), (5, .updateTarget 800), (6, .autoContribute)]).completedAt
          = wGoalDone.completedAt :=
  (goal_completion_monotone wGoalDone
    [(4, .contribute 10), (5, .updateTarget 800), (6, .autoContribute)] rfl).1

/-- Status of one entry of the `processAutoSave` results array. -/
inductive BatchStatus
  | success | failed
  deriving DecidableEq

/-- One entry of the `processAutoSave` results array (goal id/name elided). -/
structure AutoSaveResult where
  amount : ℚ
  status : BatchStatus
  error : Option String
  deriving DecidableEq

/-- The body of the `processAutoSave` loop for one due goal: try
`addContribution(goal.autoSave.amount, ..., 'auto-save')`; on success push a
success entry, on a caught error push a failed entry carrying the error
message.  (The follow-up `nextContribution` rescheduling touches only the
elided scheduling fields.)  Returns the stored goal and the pushed result. -/
def processAutoSaveGoal (g : Goal) (now : ℤ) : Goal × AutoSaveResult :=
  match addContribution g g.autoSave.amount .autoSave now with
  | .ok g1 => (g1, ⟨g.autoSave.amount, .success, none⟩)
  | .error e => (g, ⟨g.autoSave.amount, .failed, some e⟩)

/-- The `processAutoSave` loop over the due goals (the `findAutoSaveDue`
result), accumulating one result entry per goal; it is a total function:
the batch itself never fails. -/
def processAutoSave (goals : List Goal) (now : ℤ) : List AutoSaveResult :=
  match goals with
  | [] => []
  | g :: rest => (processAutoSaveGoal g now).2 :: processAutoSave rest now

theorem processAutoSave_eq_map (goals : List Goal) (now : ℤ) :
    processAutoSave goals now = goals.map fun g => (processAutoSaveGoal g now).2 := by
  induction goals with
  | nil => rfl
  | cons g rest ih =>
    show (processAutoSaveGoal g now).2 :: processAutoSave rest now = _
    rw [List.map_cons, ih]

/-- Claim C9: `processAutoSave` processes every due goal independently: the
results array has one entry per due goal; the entry for a goal whose
contribution throws has status `failed` and carries that error message, the
entry for a goal whose contribution succeeds has status `success`; an
exception for one goal does not disturb any other goal's entry, and the
batch as a whole always completes (it is a total function). -/
theorem autosave_batch_isolation (goals : List Goal) (now : ℤ) :
    (processAutoSave goals now).length = goals.length ∧
    ∀ i, ∀ hi : i < goals.length,
      ∃ hi' : i < (processAutoSave goals now).length,
        (processAutoSave goals now).get ⟨i, hi'⟩
            = (processAutoSaveGoal (goals.get ⟨i, hi⟩) now).2 ∧
        (∀ e : String,
          addContribution (goals.get ⟨i, hi⟩) (goals.get ⟨i, hi⟩).autoSave.amount
              .autoSave now = .error e →
            (processAutoSave goals now).get ⟨i, hi'⟩
              = ⟨(goals.get ⟨i, hi⟩).autoSave.amount, .failed, some e⟩) ∧
        (∀ g1 : Goal,
          addContribution (goals.get ⟨i, hi⟩) (goals.get ⟨i, hi⟩).autoSave.amount
              .autoSave now = .ok g1 →
            (processAutoSave goals now).get ⟨i, hi'⟩
              = ⟨(goals.get ⟨i, hi⟩).autoSave.amount, .success, none⟩) := by
  have hlen : (processAutoSave goals now).length = goals.length := by
    rw [processAutoSave_eq_map, List.length_map]
  refine ⟨hlen, ?_⟩
  intro i hi
  refine ⟨hlen ▸ hi, ?_⟩
  have hget : (processAutoSave goals now).get ⟨i, hlen ▸ hi⟩
      = (processAutoSaveGoal (goals.get ⟨i, hi⟩) now).2 := by
    simp only [List.get_eq_getElem, processAutoSave_eq_map, List.getElem_map]
  refine ⟨hget, ?_, ?_⟩
  · intro e he
    rw [hget]
    show (processAutoSaveGoal (goals.get ⟨i, hi⟩) now).2 = _
    unfold processAutoSaveGoal
    rw [he]
  · intro g1 hg1
    rw [hget]
    show (processAutoSaveGoal (goals.get ⟨i, hi⟩) now).2 = _
    unfold processAutoSaveGoal
    rw [hg1]

/-- A due goal whose auto-save contribution fails: its `autoSave.amount` is
the schema default 0, which `addContribution` rejects. -/
def wGoalBad : Goal :=
  { targetAmount := 400
    currentAmount := 50
    contributions := [⟨50, 1, .manual⟩]
    isCompleted := false
    completedAt := none
    autoSave := ⟨true, 0⟩
    isActive := true }

/-- A due goal whose auto-save contribution succeeds. -/
def wGoalOkay : Goal :=
  { targetAmount := 300
    currentAmount := 120
    contributions := [⟨120, 1, .manual⟩]
    isCompleted := false
    completedAt := none
    autoSave := ⟨true, 30⟩
    isActive := true }

/-- Witness for C9: in a batch where the middle goal's contribution throws,
its entry is `failed` with the error message and the following goal is still
processed successfully. -/
theorem autosave_batch_isolation_witness :
    (processAutoSave [wGoalOkay, wGoalBad, wGoalOkay] 7).length = 3 ∧
      (processAutoSave [wGoalOkay, wGoalBad, wGoalOkay] 7).get ⟨1, by decide⟩
        = ⟨0, .failed, some "Contribution amount must be positive"⟩ ∧
      (processAutoSave [wGoalOkay, wGoalBad, wGoalOkay] 7).get ⟨2, by decide⟩
        = ⟨30, .success, none⟩ := by
  obtain ⟨hlen, hall⟩ := autosave_batch_isolation [wGoalOkay, wGoalBad, wGoalOkay] 7
  obtain ⟨hi1, _, hfail, _⟩ := hall 1 (by decide)
  obtain ⟨hi2, _, _, hok⟩ := hall 2 (by decide)
  refine ⟨hlen, ?_, ?_⟩
  · exact hfail "Contribution amount must be positive"
      (addContribution_err_nonpos _ _ _ _ (by norm_num [wGoalBad]))
  · exact hok _ (addContribution_ok wGoalOkay 30 .autoSave 7 (by norm_num)
      (by norm_num [wGoalOkay]))

/-- The `frequency` enum of the Income schema. -/
inductive Frequency
  | oneTime | weekly | biWeekly | monthly | quarterly | yearly
  deriving DecidableEq

/-- The `multipliers` table of the `annualAmount` virtual (also the `$switch`
branches of `getTotalAnnualIncome`, whose `default: 0` covers one-time). -/
def freqMultiplier : Frequency → ℚ
  | .oneTime => 0
  | .weekly => 52
  | .biWeekly => 26
  | .monthly => 12
  | .quarterly => 4
  | .yearly => 1

/-- An income-source document (fields read by the rollup paths). -/
structure Income where
  amount : ℚ
  frequency : Frequency
  isActive : Bool
  endDate : Option ℤ
  deriving DecidableEq

/-- Virtual `annualAmount`: returns 0 for an inactive source, otherwise
`amount * multipliers[frequency]`. -/
def annualAmount (inc : Income) : ℚ :=
  if inc.isActive = false then 0
  else inc.amount * freqMultiplier inc.frequency

/-- Virtual `monthlyAmount`: `annualAmount / 12`. -/
def monthlyAmount (inc : Income) : ℚ :=
  annualAmount inc / 12

/-- The `$match` stage of `getTotalAnnualIncome`: `isActive: true` and
(`endDate: null` or `endDate ≥ now`). -/
def rollupMatch (now : ℤ) (inc : Income) : Bool :=
  inc.isActive &&
    (match inc.endDate with
      | none => true
      | some d => decide (now ≤ d))

/-- The `$switch` annualization used inside the `getTotalAnnualIncome`
aggregation (no `isActive` guard; the `$match` stage already filtered). -/
def switchAnnual (inc : Income) : ℚ :=
  inc.amount * freqMultiplier inc.frequency

/-- `getTotalAnnualIncome`: the `totalAnnual` field of the aggregation — the
sum of the switch-annualized amounts over the matched sources. -/
def getTotalAnnualIncome (now : ℤ) (incomes : List Income) : ℚ :=
  ((incomes.filter (rollupMatch now)).map switchAnnual).sum

/-- Counterexample for claim C7 as stated ("for every income source, the
annualized value equals amount × frequency-multiplier"): the `annualAmount`
virtual returns 0 for an inactive source, so an inactive 5000/monthly source
has `annualAmount = 0`, not `5000 × 12 = 60000`. -/
theorem income_annual_cex :
    annualAmount ⟨5000, .monthly, false, none⟩ = 0 ∧
      (5000 : ℚ) * freqMultiplier .monthly = 60000 ∧
      annualAmount ⟨5000, .monthly, false, none⟩
        ≠ (5000 : ℚ) * freqMultiplier .monthly := by
  refine ⟨rfl, by norm_num [freqMultiplier], ?_⟩
  show (0 : ℚ) ≠ 5000 * freqMultiplier .monthly
  norm_num [freqMultiplier]

/-- Claim C7 (amended): for every **active** income source the annualized
value equals amount × frequency-multiplier (one-time→0, weekly→52,
bi-weekly→26, monthly→12, quarterly→4, yearly→1; so an active 5000/monthly
source gives 60000 annual and 5000 monthly, and an active 1000/weekly source
gives 52000), and the total-annual-income rollup sums this value over exactly
the sources with `isActive = true` and (`endDate` null or `endDate ≥ now`);
inactive sources report `annualAmount = 0`. -/
theorem income_annualization (now : ℤ) (incomes : List Income) :
    (∀ inc : Income, inc.isActive = true →
      annualAmount inc = inc.amount * freqMultiplier inc.frequency) ∧
    (∀ inc : Income, inc.isActive = false → annualAmount inc = 0) ∧
    freqMultiplier .oneTime = 0 ∧ freqMultiplier .weekly = 52 ∧
    freqMultiplier .biWeekly = 26 ∧ freqMultiplier .monthly = 12 ∧
    freqMultiplier .quarterly = 4 ∧ freqMultiplier .yearly = 1 ∧
    annualAmount ⟨5000, .monthly, true, none⟩ = 60000 ∧
    monthlyAmount ⟨5000, .monthly, true, none⟩ = 5000 ∧
    annualAmount ⟨1000, .weekly, true, none⟩ = 52000 ∧
    getTotalAnnualIncome now incomes
      = ((incomes.filter fun inc =>
            inc.isActive &&
              (match inc.endDate with
                | none => true
                | some d => decide (now ≤ d))).map annualAmount).sum := by
  refine ⟨?_, ?_, rfl, rfl, rfl, rfl, rfl, rfl, ?_, ?_, ?_, ?_⟩
  · intro inc hA
    unfold annualAmount
    rw [if_neg]
    rw [hA]
    simp
  · intro inc hA
    unfold annualAmount
    rw [if_pos hA]
  · norm_num [annualAmount, freqMultiplier]
  · norm_num [monthlyAmount, annualAmount, freqMultiplier]
  · norm_num [annualAmount, freqMultiplier]
  · unfold getTotalAnnualIncome rollupMatch
    congr 1
    apply List.map_congr_left
    intro inc hmem
    rw [List.mem_filter] at hmem
    have hA : inc.isActive = true := by
      have := hmem.2
      simp only [Bool.and_eq_true] at this
      exact this.1
    unfold switchAnnual annualAmount
    rw [if_neg (by rw [hA]; simp)]

/-- Witness for C7 (amended): instantiated on a two-source list (one active
monthly, one inactive), discharging the active-source hypothesis at the
concrete monthly source. -/
theorem income_annualization_witness :
    annualAmount ⟨5000, Frequency.monthly, true, none⟩
        = (5000 : ℚ) * freqMultiplier Frequency.monthly ∧
      getTotalAnnualIncome 0 [⟨5000, .monthly, true, none⟩, ⟨7, .weekly, false, none⟩]
        = ((([⟨5000, .monthly, true, none⟩, ⟨7, .weekly, false, none⟩] : List Income).filter
            fun inc =>
              inc.isActive &&
                (match inc.endDate with
                  | none => true
                  | some d => decide ((0 : ℤ) ≤ d))).map annualAmount).sum :=
  ⟨(income_annualization 0
      [⟨5000, .monthly, true, none⟩, ⟨7, .weekly, false, none⟩]).1
      ⟨5000, .monthly, true, none⟩ rfl,
    (income_annualization 0
      [⟨5000, .monthly, true, none⟩, ⟨7, .weekly, false, none⟩]).2.2.2.2.2.2.2.2.2.2.2⟩

/-- A budget document as stored, with its `_id` and owning user id. -/
structure StoredBudget where
  id : ℕ
  user : ℕ
  budget : Budget
  deriving DecidableEq

/-- `deleteBudget` (income controller): `findOne({ _id, user })`, 404 when
absent, otherwise `budget.deleteOne()` — the document is removed from the
store (ids are unique, so removal filters on the id). -/
def deleteBudget (store : List StoredBudget) (uid bid : ℕ) :
    Except String (List StoredBudget) :=
  match store.find? (fun s => s.id == bid && s.user == uid) with
  | none => .error "Budget not found"
  | some _ => .ok (store.filter fun s => !(s.id == bid))

/-- Counterexample for claim C8: deleting the only budget of the store
leaves an empty store — the document does not survive with
`isActive = false`; `deleteBudget` is a hard delete. -/
theorem deleteBudget_cex :
    deleteBudget [⟨1, 7, wBudget⟩] 7 1 = .ok [] ∧
      ¬∃ s ∈ ([] : List StoredBudget), s.id = 1 := by
  constructor
  · rfl
  · simp

/-- Claim C8 (amended): budget deletion is hard: after a successful
`deleteBudget` no document with the deleted `_id` remains in the store (the
record is removed outright, not retained with `isActive = false`). -/
theorem deleteBudget_hard (store : List StoredBudget) (uid bid : ℕ)
    (store1 : List StoredBudget) (h : deleteBudget store uid bid = .ok store1) :
    ∀ s ∈ store1, s.id ≠ bid := by
  unfold deleteBudget at h
  cases hf : store.find? (fun s => s.id == bid && s.user == uid) with
  | none =>
    rw [hf] at h
    exact absurd h (by simp)
  | some s0 =>
    rw [hf] at h
    rw [Except.ok.injEq] at h
    subst h
    intro s hs
    have := (List.mem_filter.mp hs).2
    simpa using this

/-- Witness for C8 (amended), on a concrete two-budget store: the one
surviving document is not the deleted id. -/
theorem deleteBudget_hard_witness :
    (⟨2, 7, wBudget2⟩ : StoredBudget).id ≠ 1 :=
  deleteBudget_hard [⟨1, 7, wBudget⟩, ⟨2, 7, wBudget2⟩] 7 1 [⟨2, 7, wBudget2⟩] rfl
    ⟨2, 7, wBudget2⟩ (by simp)

/-- The category-specific `findOne` filter of `updateBudgetSpending`. -/
def catQuery (c : ExpCategory) (now : ℤ) (b : Budget) : Bool :=
  (b.category == BCategory.cat c) && b.isActive
    && decide (b.startDate ≤ now) && decide (now ≤ b.endDate)

/-- The `'total'` `findOne` filter of `updateBudgetSpending`. -/
def totQuery (now : ℤ) (b : Budget) : Bool :=
  (b.category == BCategory.total) && b.isActive
    && decide (b.startDate ≤ now) && decide (now ≤ b.endDate)

/-- One `findOne`-then-`updateSpent` step of `updateBudgetSpending` over the
budget store: a query miss is a no-op; on a hit the found document is
updated and saved, the save possibly throwing a storage error.  `fails` is
the save-failure oracle: which documents' `save()` throws. -/
def updateStep (fails : Budget → Bool) (budgets : List Budget) (q : Budget → Bool)
    (amt : ℚ) (now : ℤ) : Except String (List Budget) :=
  match budgets.findIdx? q with
  | none => .ok budgets
  | some i =>
    match budgets[i]? with
    | none => .ok budgets
    | some b =>
      if fails b then .error "save failed"
      else .ok (budgets.set i (updateSpent b amt 0 now))

/-- `updateBudgetSpending(userId, category, amount)` over the budget store:
inside a try/catch, update the category-specific active current budget, then
the `'total'` one; a thrown error is caught (and only logged), keeping
whatever had already been committed.  A total function: it never throws to
its caller. -/
def updateBudgetSpending (fails : Budget → Bool) (budgets : List Budget)
    (c : ExpCategory) (amt : ℚ) (now : ℤ) : List Budget :=
  match updateStep fails budgets (catQuery c now) amt now with
  | .error _ => budgets
  | .ok bs1 =>
    match updateStep fails bs1 (totQuery now) amt now with
    | .error _ => bs1
    | .ok bs2 => bs2

/-- The expense ledger plus the budget store mutated by the expense
controller. -/
structure ExpenseDB where
  expenses : List Expense
  budgets : List Budget

/-- `createExpense` (expense controller): required-field check, free-tier
limit check, `Expense.create` (schema `min: 0.01` validation), then the
follow-on `updateBudgetSpending` — whose failures are swallowed — and a 201
response.  (`!amount` is falsy exactly for amount = 0.) -/
def createExpense (fails : Budget → Bool) (db : ExpenseDB) (amount : ℚ)
    (description : String) (c : ExpCategory) (canAddExpense : Bool) (now : ℤ) :
    Except String (ExpenseDB × Expense) :=
  if amount = 0 ∨ description = "" then
    .error "Amount, description, and category are required"
  else if canAddExpense = false then
    .error "Monthly expense limit reached. Upgrade to premium for unlimited expenses."
  else if amount < 1 / 100 then
    .error "Expense validation failed: amount must be greater than 0"
  else
    .ok ({ expenses := db.expenses ++ [⟨amount, c, now, .completed⟩]
           budgets := updateBudgetSpending fails db.budgets c amount now },
      ⟨amount, c, now, .completed⟩)

/-- `deleteExpense` (expense controller): `findOne` (404 on miss), reverse
the budget impact via `updateBudgetSpending(-amount)`, delete the
document. -/
def deleteExpense (fails : Budget → Bool) (db : ExpenseDB) (i : ℕ) (now : ℤ) :
    Except String ExpenseDB :=
  match db.expenses[i]? with
  | none => .error "Expense not found"
  | some e =>
    .ok { expenses := db.expenses.eraseIdx i
          budgets := updateBudgetSpending fails db.budgets e.category (-e.amount) now }

/-- `updateExpense` (expense controller) restricted to an amount change:
`findOne` (404 on miss), save the new amount, and — only when the amount
changed — reverse the old impact and apply the new one. -/
def updateExpenseAmount (fails : Budget → Bool) (db : ExpenseDB) (i : ℕ)
    (newAmount : ℚ) (now : ℤ) : Except String ExpenseDB :=
  match db.expenses[i]? with
  | none => .error "Expense not found"
  | some e =>
    if newAmount = e.amount then
      .ok { db with expenses := db.expenses.set i { e with amount := newAmount } }
    else
      .ok { expenses := db.expenses.set i { e with amount := newAmount }
            budgets := updateBudgetSpending fails
              (updateBudgetSpending fails db.budgets e.category (-e.amount) now)
              e.category newAmount now }

theorem updateStep_allfail (fails : Budget → Bool) (budgets : List Budget)
    (q : Budget → Bool) (amt : ℚ) (now : ℤ) (hf : ∀ b, fails b = true) :
    updateStep fails budgets q amt now = .ok budgets ∨
      updateStep fails budgets q amt now = .error "save failed" := by
  cases hfi : budgets.findIdx? q with
  | none =>
    left
    unfold updateStep
    rw [hfi]
  | some i =>
    have hred : updateStep fails budgets q amt now
        = match budgets[i]? with
          | none => .ok budgets
          | some b =>
            if fails b then .error "save failed"
            else .ok (budgets.set i (updateSpent b amt 0 now)) := by
      unfold updateStep
      rw [hfi]
    cases hgi : budgets[i]? with
    | none =>
      left
      rw [hred, hgi]
    | some b =>
      right
      rw [hred, hgi]
      show (if fails b = true then Except.error "save failed"
          else Except.ok (budgets.set i (updateSpent b amt 0 now)))
        = Except.error "save failed"
      rw [if_pos (hf b)]

theorem updateBudgetSpending_allfail (fails : Budget → Bool) (budgets : List Budget)
    (c : ExpCategory) (amt : ℚ) (now : ℤ) (hf : ∀ b, fails b = true) :
    updateBudgetSpending fails budgets c amt now = budgets := by
  unfold updateBudgetSpending
  rcases updateStep_allfail fails budgets (catQuery c now) amt now hf with h1 | h1 <;>
    rw [h1]
  show (match updateStep fails budgets (totQuery now) amt now with
    | .error _ => budgets
    | .ok bs2 => bs2) = budgets
  rcases updateStep_allfail fails budgets (totQuery now) amt now hf with h2 | h2 <;>
    rw [h2]

/-- Claim C10 (implicit): expense mutations never fail because of the
follow-on budget-aggregate update.  `updateBudgetSpending` wraps its budget
lookups and `updateSpent` saves in a try/catch that swallows any error, so
`createExpense`, `updateExpense` and `deleteExpense` succeed for every
save-failure oracle whenever their own validations pass — and when every
budget save fails, the budget store is silently left stale (unchanged). -/
theorem expense_mutation_isolated (fails : Budget → Bool) (db : ExpenseDB)
    (amount : ℚ) (description : String) (c : ExpCategory) (now : ℤ)
    (i : ℕ) (e : Expense) (a2 : ℚ)
    (hamt : 1 / 100 ≤ amount) (hd : description ≠ "")
    (hi : db.expenses[i]? = some e) :
    createExpense fails db amount description c true now
        = .ok ({ expenses := db.expenses ++ [⟨amount, c, now, .completed⟩]
                 budgets := updateBudgetSpending fails db.budgets c amount now },
            ⟨amount, c, now, .completed⟩) ∧
    deleteExpense fails db i now
        = .ok { expenses := db.expenses.eraseIdx i
                budgets := updateBudgetSpending fails db.budgets e.category
                  (-e.amount) now } ∧
    (updateExpenseAmount fails db i a2 now).map ExpenseDB.expenses
        = .ok (db.expenses.set i { e with amount := a2 }) ∧
    ((∀ b, fails b = true) →
      updateBudgetSpending fails db.budgets c amount now = db.budgets) := by
  have hpos : (0 : ℚ) < amount := lt_of_lt_of_le (by norm_num) hamt
  refine ⟨?_, ?_, ?_, updateBudgetSpending_allfail fails db.budgets c amount now⟩
  · unfold createExpense
    rw [if_neg, if_neg (by simp), if_neg (not_lt.mpr hamt)]
    push_neg
    exact ⟨ne_of_gt hpos, hd⟩
  · unfold deleteExpense
    rw [hi]
  · unfold updateExpenseAmount
    rw [hi]
    show Except.map ExpenseDB.expenses
        (if a2 = e.amount then
          Except.ok { db with expenses := db.expenses.set i { e with amount := a2 } }
        else
          Except.ok
            { expenses := db.expenses.set i { e with amount := a2 }
              budgets := updateBudgetSpending fails
                (updateBudgetSpending fails db.budgets e.category (-e.amount) now)
                e.category a2 now })
      = Except.ok (db.expenses.set i { e with amount := a2 })
    by_cases h2 : a2 = e.amount
    · rw [if_pos h2]
      rfl
    · rw [if_neg h2]
      rfl

/-- A concrete ledger-plus-store used in the C10 witness. -/
def wDB : ExpenseDB :=
  { expenses := [⟨30, ExpCategory.food, 5, ExpStatus.completed⟩]
    budgets := [wBudget] }

/-- Witness for C10: with every budget save failing, a concrete create,
delete, and update all succeed and the budget store is left stale. -/
theorem expense_mutation_isolated_witness :
    createExpense (fun _ => true) wDB 5 "coffee" ExpCategory.food true 6
        = .ok ({ expenses := wDB.expenses ++ [⟨5, ExpCategory.food, 6, .completed⟩]
                 budgets := updateBudgetSpending (fun _ => true) wDB.budgets
                   ExpCategory.food 5 6 },
            ⟨5, ExpCategory.food, 6, .completed⟩) ∧
    deleteExpense (fun _ => true) wDB 0 6
        = .ok { expenses := wDB.expenses.eraseIdx 0
                budgets := updateBudgetSpending (fun _ => true) wDB.budgets
                  ExpCategory.food (-(30 : ℚ)) 6 } ∧
    (updateExpenseAmount (fun _ => true) wDB 0 12 6).map ExpenseDB.expenses
        = .ok (wDB.expenses.set 0 ⟨12, ExpCategory.food, 5, ExpStatus.completed⟩) ∧
    updateBudgetSpending (fun _ => true) wDB.budgets ExpCategory.food 5 6
      = wDB.budgets := by
  have h := expense_mutation_isolated (fun _ => true) wDB 5 "coffee" ExpCategory.food 6
    0 ⟨30, ExpCategory.food, 5, ExpStatus.completed⟩ 12
    (by norm_num) (by simp) rfl
  exact ⟨h.1, h.2.1, h.2.2.1, h.2.2.2 fun _ => rfl⟩

end Flux
